import Mathlib

/-!
A shallow embedding of `src/FileFinder.py` (repository `FileFinder`).

The filesystem is a value of type `FS`: a directory test (`os.path.isdir`), a
recursive walk (`os.walk`, flattened to the `(root, file-name)` pairs it yields
in traversal order), and a size query (`os.path.getsize`, where `none` models
an `OSError`).  Pure helpers (`normalize_ext_list`, `format_size`, the
extension filter, the sort, the renderers) are translated function by
function; the effectful `display_large_files` is translated to a function
returning an explicit record of its observable effects.  Python floats in
`format_size` are modelled by exact fractions `n / 1024^k` kept as scaled
naturals: for sizes below 2^53 the float computation (repeated exact division
by 1024, then `%.2f` rounding half to even) agrees with the exact one.  The
`tabulate` library is external to the repository, so the table renderer is
passed in as an oracle parameter `tab`.
-/

/-- The filesystem as seen by the program: `os.path.isdir`, `os.walk`
(flattened to `(root, name)` pairs in traversal order; `walk d` is the
traversal started at root `d`), and `os.path.getsize` (`none` = `OSError`). -/
structure FS where
  isDir : String → Bool
  walk : String → List (String × String)
  getsize : String → Option Nat

/-- `os.path.join(root, name)` with POSIX rules, as used on walk results. -/
def osJoin (root name : String) : String :=
  if name.data.head? = some '/' then name
  else if root = "" ∨ root.data.getLast? = some '/' then root ++ name
  else root ++ "/" ++ name

/-- Index of the last `'.'` in a character list, if any. -/
def lastDot (cs : List Char) : Option Nat :=
  (List.range cs.length).foldl (fun acc i => if cs.getD i ' ' = '.' then some i else acc) none

/-- `os.path.splitext(name)[1]` for a bare file name: the extension starts at
the last dot, unless every character before that dot is itself a dot (leading
dots of the basename never start an extension). -/
def splitextExt (name : String) : String :=
  let cs := name.data
  match lastDot cs with
  | none => ""
  | some d =>
    if (List.range d).any (fun i => cs.getD i ' ' ≠ '.') then String.mk (cs.drop d) else ""

/-- Python `str.lower()`, restricted to its ASCII behaviour. -/
def pyLower (s : String) : String := String.mk (s.data.map Char.toLower)

/-- The characters Python `str.strip()` removes (ASCII whitespace). -/
def pyWS (c : Char) : Bool :=
  c = ' ' || c = '\t' || c = '\n' || c = '\x0d' || c = '\x0b' || c = '\x0c'

/-- Python `str.strip()` with no argument: trim whitespace at both ends. -/
def pyStrip (s : String) : String :=
  String.mk (((s.data.dropWhile pyWS).reverse.dropWhile pyWS).reverse)

/-- `normalize_ext_list` (source lines 16-30): `None`/empty input gives
`None`; otherwise each entry is stripped, lowercased, skipped when empty,
given a leading dot when missing; an all-skipped list collapses to `None`. -/
def normalize_ext_list (exts : Option (List String)) : Option (List String) :=
  match exts with
  | none => none
  | some l =>
    if l.isEmpty then none
    else
      let norm := l.filterMap (fun ext =>
        if ext = "" then none
        else
          let e := pyLower (pyStrip ext)
          if e = "" then none
          else some (if e.data.head? = some '.' then e else "." ++ e))
      if norm.isEmpty then none else some norm

/-- Python truthiness of an optional extension list (`if include_types ...`). -/
def pyTruthy : Option (List String) → Bool
  | none => false
  | some l => !l.isEmpty

/-- The candidate filter of `find_large_files` (source lines 84-87): skip when
an include list is configured and the extension is not in it, then skip when
an exclude list is configured and the extension is in it. -/
def extPasses (incN excN : Option (List String)) (ext : String) : Bool :=
  if pyTruthy incN && !((incN.getD []).contains ext) then false
  else if pyTruthy excN && (excN.getD []).contains ext then false
  else true

/-- The enumeration loop of `find_large_files` (source lines 77-82):
non-directories are skipped with a warning, existing roots are walked. -/
def walkFiles (fs : FS) (dirs : List String) : List (String × String) :=
  dirs.flatMap (fun d => if fs.isDir d then fs.walk d else [])

/-- The `file_paths` list built by `find_large_files` (source lines 77-88):
enumerated files whose lowercased `splitext` extension passes the
include/exclude filter, joined to full paths, in enumeration order. -/
def candidatePaths (fs : FS) (dirs : List String)
    (include_types exclude_types : Option (List String)) : List String :=
  let incN := normalize_ext_list include_types
  let excN := normalize_ext_list exclude_types
  (walkFiles fs dirs).filterMap (fun rn =>
    if extPasses incN excN (pyLower (splitextExt rn.2)) then some (osJoin rn.1 rn.2) else none)

/-- `process_file` (source lines 50-66): return `(path, size)` when the size
query succeeds and the size strictly exceeds the threshold, else `None`
(an `OSError` is logged and also yields `None`). -/
def process_file (fs : FS) (file_path : String) (size_threshold : Nat) : Option (String × Nat) :=
  match fs.getsize file_path with
  | some file_size => if file_size > size_threshold then some (file_path, file_size) else none
  | none => none

/-- One insertion step of the stable descending-by-size sort: the new element
goes after every element of at-least-equal size (Python `list.sort` with
`key=lambda x: x[1], reverse=True` is stable, so equal keys keep their
original order even when reversed). -/
def insertDesc (x : String × Nat) : List (String × Nat) → List (String × Nat)
  | [] => [x]
  | y :: ys => if x.2 ≤ y.2 then y :: insertDesc x ys else x :: y :: ys

/-- `large_files.sort(key=lambda x: x[1], reverse=True)` (source line 106):
a stable sort, descending by size. -/
def pySortDesc (l : List (String × Nat)) : List (String × Nat) :=
  l.foldl (fun acc x => insertDesc x acc) []

/-- `find_large_files` (source lines 69-107): enumerate and filter candidates,
probe each once (`executor.map` yields results in input order), keep the
qualifying ones, sort descending by size.  `workers` only sizes the thread
pool and does not enter the value. -/
def find_large_files (fs : FS) (dirs : List String) (size_threshold : Nat)
    (include_types exclude_types : Option (List String)) (workers : Option Nat) :
    List (String × Nat) :=
  let file_paths := candidatePaths fs dirs include_types exclude_types
  if file_paths.isEmpty then []
  else pySortDesc (file_paths.filterMap (fun fp => process_file fs fp size_threshold))

/-- The probe phase under an explicit schedule: `sched` lists candidate
indices in the order worker threads complete their `process_file` calls; the
store records each finished probe's result at its input index. -/
def runSched (fs : FS) (cands : List String) (size_threshold : Nat) (sched : List Nat) :
    Nat → Option (Option (String × Nat)) :=
  sched.foldl
    (fun store i => Function.update store i (some (process_file fs (cands.getD i "") size_threshold)))
    (fun _ => none)

/-- Collection of probe results as `executor.map` delivers them: in input
index order, keeping qualifying ones, whatever the pool size `workers`. -/
def scanCollect (fs : FS) (cands : List String) (size_threshold : Nat)
    (workers : Option Nat) (sched : List Nat) : List (String × Nat) :=
  (List.range cands.length).filterMap (fun i => (runSched fs cands size_threshold sched i).getD none)

/-- `find_large_files` with the probe phase run under an explicit worker
schedule `sched`. -/
def find_large_files_sched (fs : FS) (dirs : List String) (size_threshold : Nat)
    (include_types exclude_types : Option (List String)) (workers : Option Nat)
    (sched : List Nat) : List (String × Nat) :=
  let file_paths := candidatePaths fs dirs include_types exclude_types
  if file_paths.isEmpty then []
  else pySortDesc (scanCollect fs file_paths size_threshold workers sched)

/-- Left-pad a two-digit fraction with a zero. -/
def pad2 (n : Nat) : String := if n < 10 then "0" ++ toString n else toString n

/-- Python `f"{num/den:.2f}"` for an exactly-represented quotient (`den > 0`):
scale to hundredths and round half to even. -/
def fmt2Div (num den : Nat) : String :=
  let q := num * 100 / den
  let r := num * 100 % den
  let h := if 2 * r < den then q
    else if den < 2 * r then q + 1
    else if q % 2 = 0 then q else q + 1
  toString (h / 100) ++ "." ++ pad2 (h % 100)

/-- The unit list of `format_size`. -/
def fsUnits : List String := ["B", "KB", "MB", "GB", "TB"]

/-- The loop of `format_size`, on the exact value `n / d`: return at the first
unit keeping the value below 1024, or unconditionally at the last unit;
otherwise divide by 1024 (here: scale the denominator). -/
def fsGo : Nat → Nat → List String → String
  | _, _, [] => ""
  | n, d, [u] => fmt2Div n d ++ " " ++ u
  | n, d, u :: us => if n < 1024 * d then fmt2Div n d ++ " " ++ u else fsGo n (1024 * d) us

/-- `format_size` (source lines 33-40): human-readable size string. -/
def format_size (num_bytes : Nat) : String := fsGo num_bytes 1 fsUnits

/-- A hexadecimal digit, lowercase. -/
def hexDigit (n : Nat) : Char := if n < 10 then Char.ofNat (48 + n) else Char.ofNat (87 + n)

/-- Four lowercase hexadecimal digits, as in a JSON `\uXXXX` escape. -/
def hex4 (n : Nat) : String :=
  String.mk [hexDigit (n / 4096 % 16), hexDigit (n / 256 % 16), hexDigit (n / 16 % 16),
    hexDigit (n % 16)]

/-- One character of CPython `json` string output.  Both modes escape the
quote, the backslash and control characters (with short escapes for the usual
five); `ensure_ascii=True` additionally escapes every character above `~`,
using a surrogate pair beyond the basic plane. -/
def jsonEscapeChar (ensureAscii : Bool) (c : Char) : String :=
  if c = '"' then "\\\""
  else if c = '\\' then "\\\\"
  else if c = '\n' then "\\n"
  else if c = '\r' then "\\r"
  else if c = '\t' then "\\t"
  else if c.toNat = 8 then "\\b"
  else if c.toNat = 12 then "\\f"
  else if c.toNat < 32 then "\\u" ++ hex4 c.toNat
  else if ensureAscii && decide (126 < c.toNat) then
    if c.toNat < 65536 then "\\u" ++ hex4 c.toNat
    else
      "\\u" ++ hex4 (55296 + (c.toNat - 65536) / 1024) ++ "\\u" ++
        hex4 (56320 + (c.toNat - 65536) % 1024)
  else String.singleton c

/-- A JSON string literal as CPython `json` renders it. -/
def jsonStr (ensureAscii : Bool) (s : String) : String :=
  "\"" ++ String.join (s.data.map (jsonEscapeChar ensureAscii)) ++ "\""

/-- One record object of the JSON report, as `json.dumps`/`json.dump` with
`indent=2` lays it out. -/
def jsonRecord (ensureAscii : Bool) (pr : String × Nat) : String :=
  "  \x7b\n    \"file_path\": " ++ jsonStr ensureAscii pr.1 ++
    ",\n    \"size_bytes\": " ++ toString pr.2 ++
    ",\n    \"size_human\": " ++ jsonStr ensureAscii (format_size pr.2) ++ "\n  \x7d"

/-- `json.dumps(..., indent=2)` of the record list (`ensure_ascii` as given:
the stdout call uses the default `True`, the file call passes `False`). -/
def jsonDump (ensureAscii : Bool) (used : List (String × Nat)) : String :=
  if used.isEmpty then "[]"
  else "[\n" ++ String.intercalate ",\n" (used.map (jsonRecord ensureAscii)) ++ "\n]"

/-- `csv.writer` QUOTE_MINIMAL test: quote when the field contains the
delimiter, the quote character, or a line-terminator character. -/
def csvNeedsQuote (s : String) : Bool :=
  s.data.any (fun c => c = ',' || c = '"' || c = '\n' || c = '\x0d')

/-- One field as the default `csv.writer` emits it: when quoting is needed,
wrap in quotes and double every quote character. -/
def csvField (s : String) : String :=
  if csvNeedsQuote s then
    "\"" ++ String.mk (s.data.flatMap (fun c => if c = '"' then ['"', '"'] else [c])) ++ "\""
  else s

/-- One row as the default `csv.writer` emits it: comma-joined minimally
quoted fields, terminated by CRLF. -/
def csvRow (fields : List String) : String :=
  String.intercalate "," (fields.map csvField) ++ "\r\n"

/-- The bytes `csv.writer` puts in the output file (source lines 156-163). -/
def csvFileContent (used : List (String × Nat)) : String :=
  csvRow ["file_path", "size_bytes", "size_human"] ++
    String.join (used.map (fun pr => csvRow [pr.1, toString pr.2, format_size pr.2]))

/-- The stdout CSV rendering (source lines 128-131): raw `print` of the header
and of `f"{fp},{fs},{format_size(fs)}"` rows, newline-terminated, unquoted. -/
def csvStdout (used : List (String × Nat)) : String :=
  "file_path,size_bytes,size_human\n" ++
    String.join (used.map (fun pr => pr.1 ++ "," ++ toString pr.2 ++ "," ++
      format_size pr.2 ++ "\n"))

/-- Everything `display_large_files` prints to stdout (source lines 121-135);
`tab` is the external `tabulate(..., tablefmt="grid")` oracle. -/
def renderStdout (tab : List (String × String) → String) (fmt : String)
    (used : List (String × Nat)) : String :=
  if fmt = "json" then jsonDump true used ++ "\n"
  else if fmt = "csv" then csvStdout used
  else "\nLarge files found:\n" ++ tab (used.map (fun pr => (pr.1, format_size pr.2))) ++ "\n"

/-- The bytes written to the output file (source lines 139-167); the format
selector is `(output_format or "table").lower()` there. -/
def renderFile (tab : List (String × String) → String) (fmt : String)
    (used : List (String × Nat)) : String :=
  if fmt = "json" then jsonDump false used
  else if fmt = "csv" then csvFileContent used
  else tab (used.map (fun pr => (pr.1, format_size pr.2)))

/-- The summary log line (source lines 172-173). -/
def summaryMsg (used : List (String × Nat)) : String :=
  "Summary: " ++ toString used.length ++ " files listed, Total size: " ++
    fmt2Div (used.map Prod.snd).sum (1024 * 1024) ++ " MB"

/-- `large_files[:limit] if limit else list(large_files)` (source line 119):
a limit of `None` or `0` is falsy and keeps the whole list; a positive limit
takes a prefix; a negative limit drops that many entries from the end. -/
def usedSlice (limit : Option Int) (l : List (String × Nat)) : List (String × Nat) :=
  match limit with
  | none => l
  | some n =>
    if n = 0 then l
    else if 0 ≤ n then l.take n.toNat
    else l.take (l.length - n.natAbs)

/-- The observable effects of one `display_large_files` call: bytes printed,
file written (path and content), info and error log lines, whether the
summary log line ran, whether an exception escaped to the caller, and the
returned list (empty when an exception escaped: no value was returned). -/
structure DisplayResult where
  stdout : String
  written : Option (String × String)
  infoLogs : List String
  errorLogs : List String
  summaryEmitted : Bool
  raised : Bool
  returned : List (String × Nat)
deriving Repr, DecidableEq

/-- `display_large_files` (source lines 110-174) as an effect record.
`mkdirOk` is the outcome of `ensure_parent_dir` (source lines 43-47, called
OUTSIDE the local `try`, so its failure escapes the function); `writeOk` is
the outcome of opening/writing the output file (inside the `try`, so its
failure is only logged).  An empty input returns early with just a notice. -/
def display_large_files (tab : List (String × String) → String)
    (large_files : List (String × Nat)) (output_file : Option String)
    (limit : Option Int) (output_format : String) (mkdirOk writeOk : Bool) : DisplayResult :=
  if large_files.isEmpty then
    { stdout := "", written := none,
      infoLogs := ["No files larger than the specified threshold were found."],
      errorLogs := [], summaryEmitted := false, raised := false, returned := [] }
  else
    let used := usedSlice limit large_files
    let out := renderStdout tab output_format used
    match output_file with
    | none =>
      { stdout := out, written := none, infoLogs := [summaryMsg used], errorLogs := [],
        summaryEmitted := true, raised := false, returned := used }
    | some path =>
      if mkdirOk then
        let fmt := pyLower (if output_format = "" then "table" else output_format)
        if writeOk then
          { stdout := out, written := some (path, renderFile tab fmt used),
            infoLogs := ["Results saved to " ++ path, summaryMsg used], errorLogs := [],
            summaryEmitted := true, raised := false, returned := used }
        else
          { stdout := out, written := none, infoLogs := [summaryMsg used],
            errorLogs := ["Failed to save results to '" ++ path ++ "'"],
            summaryEmitted := true, raised := false, returned := used }
      else
        { stdout := out, written := none, infoLogs := [], errorLogs := [],
          summaryEmitted := false, raised := true, returned := [] }

/-- One iteration of the deletion loop of `main` (source lines 355-362):
`os.remove` succeeds (`removeOk`) and increments `deleted`, or raises and
increments `failed`; either way the path was attempted. -/
def deleteStep (removeOk : String → Bool) (acc : Nat × Nat × List String)
    (pr : String × Nat) : Nat × Nat × List String :=
  if removeOk pr.1 then (acc.1 + 1, acc.2.1, acc.2.2 ++ [pr.1])
  else (acc.1, acc.2.1 + 1, acc.2.2 ++ [pr.1])

/-- The deletion loop of `main` (source lines 355-363): fold over the used
list, returning `(deleted, failed, attempted paths in order)`. -/
def deleteRun (removeOk : String → Bool) (used : List (String × Nat)) :
    Nat × Nat × List String :=
  used.foldl (deleteStep removeOk) (0, 0, [])

/-! ## Properties of the stable descending sort -/

theorem insertDesc_perm (x : String × Nat) (l : List (String × Nat)) :
    List.Perm (insertDesc x l) (x :: l) := by
  induction l with
  | nil => exact List.Perm.refl _
  | cons y ys ih =>
    unfold insertDesc
    split
    · exact (ih.cons y).trans (List.Perm.swap x y ys)
    · exact List.Perm.refl _

theorem mem_insertDesc {a x : String × Nat} {l : List (String × Nat)} :
    a ∈ insertDesc x l ↔ a = x ∨ a ∈ l := by
  rw [(insertDesc_perm x l).mem_iff, List.mem_cons]

theorem insertDesc_pairwise (x : String × Nat) (l : List (String × Nat))
    (h : l.Pairwise fun a b => b.2 ≤ a.2) :
    (insertDesc x l).Pairwise fun a b => b.2 ≤ a.2 := by
  induction l with
  | nil => simp [insertDesc]
  | cons y ys ih =>
    rw [List.pairwise_cons] at h
    obtain ⟨hy, hys⟩ := h
    unfold insertDesc
    split
    case isTrue hle =>
      rw [List.pairwise_cons]
      refine ⟨fun b hb => ?_, ih hys⟩
      rcases mem_insertDesc.mp hb with rfl | hb'
      · exact hle
      · exact hy b hb'
    case isFalse hgt =>
      rw [List.pairwise_cons]
      refine ⟨fun b hb => ?_, List.pairwise_cons.mpr ⟨hy, hys⟩⟩
      rcases List.mem_cons.mp hb with rfl | hb'
      · exact le_of_not_le hgt
      · exact le_trans (hy b hb') (le_of_not_le hgt)

theorem foldl_insertDesc_pairwise :
    ∀ (l acc : List (String × Nat)), acc.Pairwise (fun a b => b.2 ≤ a.2) →
      (l.foldl (fun a b => insertDesc b a) acc).Pairwise fun a b => b.2 ≤ a.2 := by
  intro l
  induction l with
  | nil => exact fun acc h => h
  | cons x xs ih => exact fun acc h => ih _ (insertDesc_pairwise x acc h)

theorem pySortDesc_pairwise (l : List (String × Nat)) :
    (pySortDesc l).Pairwise fun a b => b.2 ≤ a.2 :=
  foldl_insertDesc_pairwise l [] (List.Pairwise.nil)

theorem foldl_insertDesc_perm :
    ∀ (l acc : List (String × Nat)),
      List.Perm (l.foldl (fun a b => insertDesc b a) acc) (acc ++ l) := by
  intro l
  induction l with
  | nil => simp
  | cons x xs ih =>
    intro acc
    have h1 : List.Perm (xs.foldl (fun a b => insertDesc b a) (insertDesc x acc))
        (insertDesc x acc ++ xs) := ih _
    have h2 : List.Perm (insertDesc x acc ++ xs) ((x :: acc) ++ xs) :=
      (insertDesc_perm x acc).append_right xs
    have h3 : List.Perm (x :: (acc ++ xs)) (acc ++ x :: xs) := List.perm_middle.symm
    exact (h1.trans h2).trans h3

theorem pySortDesc_perm (l : List (String × Nat)) : List.Perm (pySortDesc l) l := by
  simpa using foldl_insertDesc_perm l []

theorem insertDesc_filter (s : Nat) (x : String × Nat) (l : List (String × Nat))
    (h : l.Pairwise fun a b => b.2 ≤ a.2) :
    (insertDesc x l).filter (fun pr => pr.2 == s) =
      l.filter (fun pr => pr.2 == s) ++ if x.2 == s then [x] else [] := by
  induction l with
  | nil => cases hx : (x.2 == s) <;> simp [insertDesc, hx]
  | cons y ys ih =>
    rw [List.pairwise_cons] at h
    obtain ⟨hy, hys⟩ := h
    unfold insertDesc
    split
    case isTrue hle =>
      rw [List.filter_cons, List.filter_cons, ih hys]
      cases hyv : (y.2 == s) <;> simp [hyv]
    case isFalse hgt =>
      have hlt : y.2 < x.2 := Nat.lt_of_not_le hgt
      cases hx : (x.2 == s)
      case false => simp [List.filter_cons, hx]
      case true =>
        have hs : x.2 = s := eq_of_beq hx
        have hnil : (y :: ys).filter (fun pr => pr.2 == s) = [] := by
          rw [List.filter_eq_nil_iff]
          intro a ha
          have hle' : a.2 ≤ y.2 := by
            rcases List.mem_cons.mp ha with rfl | h'
            · exact le_refl _
            · exact hy a h'
          have : a.2 < s := lt_of_le_of_lt hle' (hs ▸ hlt)
          simp [Nat.ne_of_lt this]
        rw [List.filter_cons]
        simp [hx, hnil]

theorem foldl_insertDesc_filter (s : Nat) :
    ∀ (l acc : List (String × Nat)), acc.Pairwise (fun a b => b.2 ≤ a.2) →
      (l.foldl (fun a b => insertDesc b a) acc).filter (fun pr => pr.2 == s) =
        acc.filter (fun pr => pr.2 == s) ++ l.filter (fun pr => pr.2 == s) := by
  intro l
  induction l with
  | nil => simp
  | cons x xs ih =>
    intro acc hacc
    rw [List.foldl_cons, ih _ (insertDesc_pairwise x acc hacc),
      insertDesc_filter s x acc hacc, List.filter_cons]
    cases hx : (x.2 == s) <;> simp [hx]

theorem pySortDesc_filter (s : Nat) (l : List (String × Nat)) :
    (pySortDesc l).filter (fun pr => pr.2 == s) = l.filter (fun pr => pr.2 == s) := by
  simpa using foldl_insertDesc_filter s l [] List.Pairwise.nil

/-! ## C1: strict size threshold -/

theorem find_large_files_eq (fs : FS) (dirs : List String) (T : Nat)
    (inc exc : Option (List String)) (w : Option Nat) :
    find_large_files fs dirs T inc exc w =
      pySortDesc ((candidatePaths fs dirs inc exc).filterMap
        (fun fp => process_file fs fp T)) := by
  show (if (candidatePaths fs dirs inc exc).isEmpty then []
      else pySortDesc ((candidatePaths fs dirs inc exc).filterMap
        (fun fp => process_file fs fp T))) = _
  cases he : (candidatePaths fs dirs inc exc).isEmpty
  · simp
  · rw [List.isEmpty_iff.mp he]
    simp [pySortDesc]

/-- C1: every `(path, size)` pair in the list returned by `find_large_files`
satisfies `size > size_threshold`; no file of size `≤ size_threshold`
(equality included) ever appears in the result. -/
theorem claim1_result_sizes_exceed_threshold (fs : FS) (dirs : List String)
    (T : Nat) (inc exc : Option (List String)) (w : Option Nat) (p : String) (s : Nat)
    (h : (p, s) ∈ find_large_files fs dirs T inc exc w) : T < s := by
  rw [find_large_files_eq] at h
  have h' : (p, s) ∈ (candidatePaths fs dirs inc exc).filterMap
      (fun fp => process_file fs fp T) := (pySortDesc_perm _).subset h
  obtain ⟨fp, _, hpf⟩ := List.mem_filterMap.mp h'
  cases hg : fs.getsize fp with
  | none => simp [process_file, hg] at hpf
  | some sz =>
    simp only [process_file, hg] at hpf
    by_cases hsz : sz > T
    · rw [if_pos hsz] at hpf
      injection hpf with h2
      cases h2
      exact hsz
    · rw [if_neg hsz] at hpf
      cases hpf

/-- A tiny concrete filesystem shared by the witnesses: one directory `/d`
holding `a.bin` (5 bytes), `b.bin` (7 bytes) and `c.txt` (9 bytes). -/
def fsW : FS where
  isDir := fun d => d = "/d"
  walk := fun d => if d = "/d" then [("/d", "a.bin"), ("/d", "b.bin"), ("/d", "c.txt")] else []
  getsize := fun p =>
    if p = "/d/a.bin" then some 5
    else if p = "/d/b.bin" then some 7
    else if p = "/d/c.txt" then some 9 else none

theorem claim1_witness :
    ("/d/b.bin", 7) ∈ find_large_files fsW ["/d"] 5 none none none ∧ 5 < 7 :=
  ⟨by decide, claim1_result_sizes_exceed_threshold fsW ["/d"] 5 none none none
    "/d/b.bin" 7 (by decide)⟩

/-! ## C2: the include/exclude candidate filter -/

/-- The spec's candidacy predicate over normalized sets: (include absent OR
extension in include) AND (exclude absent OR extension not in exclude). -/
def specCandidate (incN excN : Option (List String)) (ext : String) : Prop :=
  (incN = none ∨ ext ∈ incN.getD []) ∧ (excN = none ∨ ext ∉ excN.getD [])

instance (incN excN : Option (List String)) (ext : String) :
    Decidable (specCandidate incN excN ext) := by
  unfold specCandidate
  infer_instance

theorem normalize_ext_list_ne_nil (e : Option (List String)) (l : List String)
    (h : normalize_ext_list e = some l) : l ≠ [] := by
  cases e with
  | none => cases h
  | some xs =>
    simp only [normalize_ext_list] at h
    split at h
    · cases h
    · split at h
      · cases h
      next hne =>
        injection h with h2
        intro hl
        apply hne
        rw [h2, hl]
        rfl

theorem extPasses_eq_decide (incN excN : Option (List String)) (ext : String)
    (hinc : ∀ l, incN = some l → l ≠ []) (hexc : ∀ l, excN = some l → l ≠ []) :
    extPasses incN excN ext = decide (specCandidate incN excN ext) := by
  unfold extPasses specCandidate
  cases incN with
  | none =>
    cases excN with
    | none => simp [pyTruthy]
    | some le =>
      have he := hexc le rfl
      by_cases hm : ext ∈ le <;>
        simp [pyTruthy, List.isEmpty_eq_false.mpr he, hm]
  | some li =>
    have hi := hinc li rfl
    cases excN with
    | none =>
      by_cases hm : ext ∈ li <;>
        simp [pyTruthy, List.isEmpty_eq_false.mpr hi, hm]
    | some le =>
      have he := hexc le rfl
      by_cases hmi : ext ∈ li <;> by_cases hme : ext ∈ le <;>
        simp [pyTruthy, List.isEmpty_eq_false.mpr hi, List.isEmpty_eq_false.mpr he, hmi, hme]

theorem filterMap_if_eq {α β : Type} (p : α → Bool) (g : α → β) (l : List α) :
    l.filterMap (fun a => if p a then some (g a) else none) = (l.filter p).map g := by
  induction l with
  | nil => rfl
  | cons a l ih => cases hp : p a <;> simp [List.filterMap_cons, List.filter_cons, hp, ih]

/-- C2: a file enumerated by the walk becomes a candidate (is probed) iff
(the include set is absent OR its lowercase extension is in the normalized
include set) AND (the exclude set is absent OR its extension is not in the
normalized exclude set): the candidate list is exactly the enumerated list
filtered by that predicate, joined to full paths, in order. -/
theorem claim2_candidate_iff_filter (fs : FS) (dirs : List String)
    (inc exc : Option (List String)) :
    candidatePaths fs dirs inc exc =
      ((walkFiles fs dirs).filter (fun rn =>
        decide (specCandidate (normalize_ext_list inc) (normalize_ext_list exc)
          (pyLower (splitextExt rn.2))))).map (fun rn => osJoin rn.1 rn.2) := by
  unfold candidatePaths
  rw [filterMap_if_eq]
  congr 1
  apply List.filter_congr
  intro rn _
  exact extPasses_eq_decide _ _ _
    (normalize_ext_list_ne_nil inc) (normalize_ext_list_ne_nil exc)

/-! ## C3: descending order, and C10: stable equal-size order -/

/-- C3: the list returned by `find_large_files` is sorted descending by size:
for indices `i < j` within bounds, `size[i] ≥ size[j]`. -/
theorem claim3_sorted_desc (fs : FS) (dirs : List String) (T : Nat)
    (inc exc : Option (List String)) (w : Option Nat) (i j : Nat) (hij : i < j)
    (hj : j < (find_large_files fs dirs T inc exc w).length) :
    ((find_large_files fs dirs T inc exc w).getD j ("", 0)).2 ≤
      ((find_large_files fs dirs T inc exc w).getD i ("", 0)).2 := by
  have hi : i < (find_large_files fs dirs T inc exc w).length := lt_trans hij hj
  have hp : (find_large_files fs dirs T inc exc w).Pairwise (fun a b => b.2 ≤ a.2) := by
    rw [find_large_files_eq]
    exact pySortDesc_pairwise _
  have hr := List.pairwise_iff_getElem.mp hp i j hi hj hij
  rw [List.getD_eq_getElem?_getD, List.getD_eq_getElem?_getD,
    List.getElem?_eq_getElem hj, List.getElem?_eq_getElem hi]
  exact hr

theorem claim3_witness :
    (0 : Nat) < 1 ∧ 1 < (find_large_files fsW ["/d"] 0 none none none).length ∧
      ((find_large_files fsW ["/d"] 0 none none none).getD 1 ("", 0)).2 ≤
        ((find_large_files fsW ["/d"] 0 none none none).getD 0 ("", 0)).2 :=
  ⟨by decide, by decide,
    claim3_sorted_desc fsW ["/d"] 0 none none none 0 1 (by decide) (by decide)⟩

/-- C10: entries of equal size appear in the result of `find_large_files` in
candidate-enumeration order: restricted to any one size `s`, the sorted result
coincides with the probe-order qualifying list (which `executor.map` yields in
candidate input order), so the equal-size tie-break is deterministic for a
fixed enumeration order. -/
theorem claim10_equal_size_stable (fs : FS) (dirs : List String) (T : Nat)
    (inc exc : Option (List String)) (w : Option Nat) (s : Nat) :
    (find_large_files fs dirs T inc exc w).filter (fun pr => pr.2 == s) =
      ((candidatePaths fs dirs inc exc).filterMap
        (fun fp => process_file fs fp T)).filter (fun pr => pr.2 == s) := by
  rw [find_large_files_eq]
  exact pySortDesc_filter s _

/-! ## C5: worker-count and schedule independence -/

theorem runSched_foldl_eq (fs : FS) (cands : List String) (T : Nat) :
    ∀ (sched : List Nat) (store : Nat → Option (Option (String × Nat))) (i : Nat),
      store i = some (process_file fs (cands.getD i "") T) ∨ i ∈ sched →
      sched.foldl
        (fun store i => Function.update store i (some (process_file fs (cands.getD i "") T)))
        store i = some (process_file fs (cands.getD i "") T) := by
  intro sched
  induction sched with
  | nil =>
    intro store i h
    rcases h with h | h
    · exact h
    · cases h
  | cons j rest ih =>
    intro store i h
    rw [List.foldl_cons]
    apply ih
    by_cases hij : i = j
    · subst hij
      left
      rw [Function.update_same]
    · rcases h with h | h
      · left
        rw [Function.update_noteq hij]
        exact h
      · rcases List.mem_cons.mp h with rfl | h'
        · exact absurd rfl hij
        · right
          exact h'

theorem filterMap_range_getD (f : String → Option (String × Nat)) :
    ∀ (l : List String),
      (List.range l.length).filterMap (fun i => f (l.getD i "")) = l.filterMap f := by
  intro l
  induction l with
  | nil => rfl
  | cons a l ih =>
    rw [List.length_cons, List.range_succ_eq_map, List.filterMap_cons, List.filterMap_map]
    have hcomp : ((fun i => f ((a :: l).getD i "")) ∘ Nat.succ) = fun i => f (l.getD i "") := by
      funext i
      rfl
    rw [hcomp, ih, List.filterMap_cons]
    rfl

theorem scanCollect_eq (fs : FS) (cands : List String) (T : Nat) (w : Option Nat)
    (sched : List Nat) (hperm : List.Perm sched (List.range cands.length)) :
    scanCollect fs cands T w sched = cands.filterMap (fun fp => process_file fs fp T) := by
  unfold scanCollect
  have h1 : ∀ i ∈ List.range cands.length,
      (runSched fs cands T sched i).getD none = process_file fs (cands.getD i "") T := by
    intro i hi
    have hm : i ∈ sched := hperm.mem_iff.mpr hi
    unfold runSched
    rw [runSched_foldl_eq fs cands T sched _ i (Or.inr hm)]
    rfl
  rw [List.filterMap_congr h1]
  exact filterMap_range_getD (fun fp => process_file fs fp T) cands

/-- C5: for a fixed filesystem and candidate list, `find_large_files` produces
the identical result list for every worker count and every schedule in which
each candidate is probed exactly once: the scheduled run equals the sequential
semantics, whatever `workers` value either side uses. -/
theorem claim5_schedule_independent (fs : FS) (dirs : List String) (T : Nat)
    (inc exc : Option (List String)) (w w' : Option Nat) (sched : List Nat)
    (hperm : List.Perm sched (List.range (candidatePaths fs dirs inc exc).length)) :
    find_large_files_sched fs dirs T inc exc w sched =
      find_large_files fs dirs T inc exc w' := by
  show (if (candidatePaths fs dirs inc exc).isEmpty then []
      else pySortDesc (scanCollect fs (candidatePaths fs dirs inc exc) T w sched)) =
    (if (candidatePaths fs dirs inc exc).isEmpty then []
      else pySortDesc ((candidatePaths fs dirs inc exc).filterMap
        (fun fp => process_file fs fp T)))
  rw [scanCollect_eq fs _ T w sched hperm]

theorem claim5_witness :
    List.Perm [1, 2, 0] (List.range (candidatePaths fsW ["/d"] none none).length) ∧
      find_large_files_sched fsW ["/d"] 6 none none (some 4) [1, 2, 0] =
        find_large_files fsW ["/d"] 6 none none none :=
  ⟨by decide,
    claim5_schedule_independent fsW ["/d"] 6 none none (some 4) none [1, 2, 0] (by decide)⟩

/-! ## C4: the result limit, C7: the empty result set -/

/-- A trivial concrete table-renderer oracle used by witnesses. -/
def tab0 : List (String × String) → String := fun _ => ""

theorem display_none_fields (tab : List (String × String) → String)
    (files : List (String × Nat)) (lim : Option Int) (fmt : String)
    (hne : files.isEmpty = false) :
    display_large_files tab files none lim fmt true true =
      { stdout := renderStdout tab fmt (usedSlice lim files), written := none,
        infoLogs := [summaryMsg (usedSlice lim files)], errorLogs := [],
        summaryEmitted := true, raised := false, returned := usedSlice lim files } := by
  unfold display_large_files
  rw [hne]
  rfl

/-- C4 counterexample: with limit `0` and one qualifying file, the returned
list has length `1`, not `min 0 1 = 0`: Python's `if limit` treats `0` as
falsy and keeps the whole list. -/
theorem claim4_counterexample :
    (display_large_files tab0 [("a", 1)] none (some 0) "table" true true).returned.length ≠
      min (Int.toNat 0) 1 := by decide

/-- C4 amended: for every POSITIVE limit `N`, the displayed/returned list is
the first `N` entries post-sort, of length exactly `min(N, total qualifying
count)`; a limit of `0` (like an absent limit) is treated as "no limit" and
keeps the whole list. -/
theorem claim4_amended_positive_limit (tab : List (String × String) → String)
    (files : List (String × Nat)) (fmt : String) (n : Int) (hn : 0 < n) :
    (display_large_files tab files none (some n) fmt true true).returned =
        files.take n.toNat ∧
      (display_large_files tab files none (some n) fmt true true).returned.length =
        min n.toNat files.length := by
  have hslice : usedSlice (some n) files = files.take n.toNat := by
    show (if n = 0 then files
        else if 0 ≤ n then files.take n.toNat
        else files.take (files.length - n.natAbs)) = files.take n.toNat
    rw [if_neg (by omega), if_pos (le_of_lt hn)]
  cases hf : files.isEmpty
  case false =>
    rw [display_none_fields tab files (some n) fmt hf, hslice]
    exact ⟨rfl, List.length_take n.toNat files⟩
  case true =>
    rw [List.isEmpty_iff.mp hf]
    have hret : (display_large_files tab [] none (some n) fmt true true).returned =
        ([] : List (String × Nat)) := rfl
    rw [hret]
    constructor <;> simp

theorem claim4_witness :
    (display_large_files tab0 [("a", 1), ("b", 2)] none (some 1) "table" true true).returned =
        [("a", 1), ("b", 2)].take (Int.toNat 1) ∧
      (display_large_files tab0 [("a", 1), ("b", 2)] none (some 1) "table"
          true true).returned.length =
        min (Int.toNat 1) [("a", 1), ("b", 2)].length :=
  claim4_amended_positive_limit tab0 [("a", 1), ("b", 2)] "table" 1 (by decide)

/-- C7: on an empty result set `display_large_files` renders nothing, writes
no output file (even when a path is supplied), logs only the informational
notice, and returns the empty list. -/
theorem claim7_empty_no_render_no_write (tab : List (String × String) → String)
    (out : Option String) (lim : Option Int) (fmt : String) (mOk wOk : Bool) :
    display_large_files tab [] out lim fmt mOk wOk =
      { stdout := "", written := none,
        infoLogs := ["No files larger than the specified threshold were found."],
        errorLogs := [], summaryEmitted := false, raised := false, returned := [] } := rfl

/-! ## C9: the deletion loop -/

theorem deleteRun_foldl (rm : String → Bool) :
    ∀ (used : List (String × Nat)) (d f : Nat) (att : List String),
      used.foldl (deleteStep rm) (d, f, att) =
        (d + (used.map Prod.fst).countP rm,
          f + (used.map Prod.fst).countP (fun q => !rm q),
          att ++ used.map Prod.fst) := by
  intro used
  induction used with
  | nil => intro d f att; simp
  | cons pr rest ih =>
    intro d f att
    rw [List.foldl_cons]
    cases hrm : rm pr.1
    case false =>
      have hstep : deleteStep rm (d, f, att) pr = (d, f + 1, att ++ [pr.1]) := by
        unfold deleteStep
        rw [hrm]
        rfl
      rw [hstep, ih, List.map_cons, List.countP_cons, List.countP_cons, hrm]
      simp [Prod.ext_iff, List.append_assoc]
      try omega
    case true =>
      have hstep : deleteStep rm (d, f, att) pr = (d + 1, f, att ++ [pr.1]) := by
        unfold deleteStep
        rw [hrm]
        rfl
      rw [hstep, ih, List.map_cons, List.countP_cons, List.countP_cons, hrm]
      simp [Prod.ext_iff, List.append_assoc]
      try omega

theorem countP_not_add (rm : String → Bool) (l : List String) :
    l.countP rm + l.countP (fun q => !rm q) = l.length := by
  induction l with
  | nil => rfl
  | cons a l ih => cases h : rm a <;> simp [List.countP_cons, h] <;> omega

/-- C9: given a go decision on `K` files, the deleter attempts every file
independently and in order; if all removals succeed it reports
`deleted = K, failed = 0`; if exactly one target fails at delete time it
reports `deleted = K - 1, failed = 1`, and every file is still attempted. -/
theorem claim9_deleter_counts (rm : String → Bool) (used : List (String × Nat)) :
    (deleteRun rm used).2.2 = used.map Prod.fst ∧
      ((∀ pr ∈ used, rm pr.1 = true) →
        deleteRun rm used = (used.length, 0, used.map Prod.fst)) ∧
      ((used.map Prod.fst).countP (fun q => !rm q) = 1 →
        deleteRun rm used = (used.length - 1, 1, used.map Prod.fst)) := by
  have hg := deleteRun_foldl rm used 0 0 []
  unfold deleteRun
  rw [hg]
  refine ⟨rfl, fun hall => ?_, fun h1 => ?_⟩
  · have hc1 : (used.map Prod.fst).countP rm = used.length := by
      rw [List.countP_eq_length.mpr, List.length_map]
      intro a ha
      obtain ⟨pr, hpr, rfl⟩ := List.mem_map.mp ha
      exact hall pr hpr
    have hc0 : (used.map Prod.fst).countP (fun q => !rm q) = 0 := by
      rw [List.countP_eq_zero]
      intro a ha
      obtain ⟨pr, hpr, rfl⟩ := List.mem_map.mp ha
      simp [hall pr hpr]
    simp [hc1, hc0]
  · have hsum := countP_not_add rm (used.map Prod.fst)
    rw [h1, List.length_map] at hsum
    have hc1 : (used.map Prod.fst).countP rm = used.length - 1 := by omega
    simp [hc1, h1]

theorem claim9_witness :
    deleteRun (fun q => q != "b") [("a", 1), ("b", 2), ("c", 3)] = (2, 1, ["a", "b", "c"]) :=
  (claim9_deleter_counts (fun q => q != "b") [("a", 1), ("b", 2), ("c", 3)]).2.2 (by decide)

/-! ## C8: output-write failures -/

theorem display_some_write_ok (tab : List (String × String) → String)
    (files : List (String × Nat)) (p : String) (lim : Option Int) (fmt : String)
    (hne : files.isEmpty = false) :
    display_large_files tab files (some p) lim fmt true true =
      { stdout := renderStdout tab fmt (usedSlice lim files),
        written := some (p, renderFile tab (pyLower (if fmt = "" then "table" else fmt))
          (usedSlice lim files)),
        infoLogs := ["Results saved to " ++ p, summaryMsg (usedSlice lim files)],
        errorLogs := [], summaryEmitted := true, raised := false,
        returned := usedSlice lim files } := by
  unfold display_large_files
  rw [hne]
  rfl

theorem display_some_write_fail (tab : List (String × String) → String)
    (files : List (String × Nat)) (p : String) (lim : Option Int) (fmt : String)
    (hne : files.isEmpty = false) :
    display_large_files tab files (some p) lim fmt true false =
      { stdout := renderStdout tab fmt (usedSlice lim files), written := none,
        infoLogs := [summaryMsg (usedSlice lim files)],
        errorLogs := ["Failed to save results to '" ++ p ++ "'"],
        summaryEmitted := true, raised := false, returned := usedSlice lim files } := by
  unfold display_large_files
  rw [hne]
  rfl

/-- C8 counterexample: when `ensure_parent_dir` fails (it is called OUTSIDE
the local `try`), the exception escapes `display_large_files`: the summary is
not emitted (and in `main` the deletion phase is skipped), contradicting the
claim that every persisting failure leaves all later steps running. -/
theorem claim8_counterexample :
    (display_large_files tab0 [("a", 1)] (some "o") none "csv" false true).summaryEmitted
        = false ∧
      (display_large_files tab0 [("a", 1)] (some "o") none "csv" false true).raised = true :=
  ⟨rfl, rfl⟩

/-- C8 amended: a failure while OPENING OR WRITING the output file is only
logged: the stdout rendering, the returned list and the summary emission are
identical to the successful run, no exception escapes (so the deletion phase
still runs), nothing is written, and exactly one error is logged.  A failure
while creating missing parent directories, by contrast, escapes to the
top-level handler (see the counterexample). -/
theorem claim8_amended_write_failure_nonfatal (tab : List (String × String) → String)
    (files : List (String × Nat)) (p : String) (lim : Option Int) (fmt : String)
    (hne : files ≠ []) :
    (display_large_files tab files (some p) lim fmt true false).stdout =
        (display_large_files tab files (some p) lim fmt true true).stdout ∧
      (display_large_files tab files (some p) lim fmt true false).returned =
        (display_large_files tab files (some p) lim fmt true true).returned ∧
      (display_large_files tab files (some p) lim fmt true false).summaryEmitted = true ∧
      (display_large_files tab files (some p) lim fmt true false).raised = false ∧
      (display_large_files tab files (some p) lim fmt true false).written = none ∧
      (display_large_files tab files (some p) lim fmt true false).errorLogs =
        ["Failed to save results to '" ++ p ++ "'"] := by
  have hie : files.isEmpty = false := List.isEmpty_eq_false.mpr hne
  rw [display_some_write_ok tab files p lim fmt hie,
    display_some_write_fail tab files p lim fmt hie]
  exact ⟨rfl, rfl, rfl, rfl, rfl, rfl⟩

theorem claim8_witness :
    (display_large_files tab0 [("a", 1)] (some "o") none "csv" true false).stdout =
        (display_large_files tab0 [("a", 1)] (some "o") none "csv" true true).stdout ∧
      (display_large_files tab0 [("a", 1)] (some "o") none "csv" true false).returned =
        (display_large_files tab0 [("a", 1)] (some "o") none "csv" true true).returned ∧
      (display_large_files tab0 [("a", 1)] (some "o") none "csv" true
          false).summaryEmitted = true ∧
      (display_large_files tab0 [("a", 1)] (some "o") none "csv" true false).raised = false ∧
      (display_large_files tab0 [("a", 1)] (some "o") none "csv" true false).written = none ∧
      (display_large_files tab0 [("a", 1)] (some "o") none "csv" true false).errorLogs =
        ["Failed to save results to '" ++ "o" ++ "'"] :=
  claim8_amended_write_failure_nonfatal tab0 [("a", 1)] "o" none "csv" (by decide)

/-! ## C6: persisted report versus stdout rendering -/

/-- Every character of the string is ASCII (codepoint at most `~`). -/
def asciiStr (s : String) : Prop := ∀ c ∈ s.data, c.toNat ≤ 126

instance (s : String) : Decidable (asciiStr s) := by
  unfold asciiStr
  infer_instance

theorem jsonEscapeChar_ascii (c : Char) (h : c.toNat ≤ 126) :
    jsonEscapeChar false c = jsonEscapeChar true c := by
  unfold jsonEscapeChar
  rw [decide_eq_false (by omega : ¬(126 < c.toNat))]
  simp

theorem jsonStr_ascii (s : String) (h : asciiStr s) : jsonStr false s = jsonStr true s := by
  unfold jsonStr
  rw [List.map_congr_left (fun c hc => jsonEscapeChar_ascii c (h c hc))]

theorem jsonRecord_ascii (pr : String × Nat) (h1 : asciiStr pr.1)
    (h2 : asciiStr (format_size pr.2)) : jsonRecord false pr = jsonRecord true pr := by
  unfold jsonRecord
  rw [jsonStr_ascii _ h1, jsonStr_ascii _ h2]

theorem jsonDump_ascii (used : List (String × Nat))
    (h : ∀ pr ∈ used, asciiStr pr.1 ∧ asciiStr (format_size pr.2)) :
    jsonDump false used = jsonDump true used := by
  unfold jsonDump
  rw [List.map_congr_left (fun pr hpr => jsonRecord_ascii pr (h pr hpr).1 (h pr hpr).2)]

/-- C6 counterexample: for the csv selector the persisted bytes are NOT
identical to the stdout rendering: the file writer quotes fields containing a
comma and terminates rows with CRLF, while stdout prints raw comma-joined
rows with LF. -/
theorem claim6_counterexample :
    (display_large_files tab0 [("a,b", 0)] (some "o") none "csv" true true).written ≠
      some ("o",
        (display_large_files tab0 [("a,b", 0)] (some "o") none "csv" true true).stdout) := by
  decide

/-- C6 amended: the persisted report renders the same records but is not
byte-identical to stdout in general.  For the json selector with ASCII
content the file holds exactly the stdout rendering minus the trailing
newline that `print` appends (with non-ASCII content they differ again,
through `ensure_ascii`); csv differs by quoting and CRLF, table by the
stdout preamble. -/
theorem claim6_amended_json_ascii (tab : List (String × String) → String)
    (files : List (String × Nat)) (p : String) (lim : Option Int)
    (hne : files ≠ [])
    (hascii : ∀ pr ∈ usedSlice lim files, asciiStr pr.1 ∧ asciiStr (format_size pr.2)) :
    (display_large_files tab files (some p) lim "json" true true).written =
        some (p, jsonDump true (usedSlice lim files)) ∧
      (display_large_files tab files (some p) lim "json" true true).stdout =
        jsonDump true (usedSlice lim files) ++ "\n" := by
  have hie : files.isEmpty = false := List.isEmpty_eq_false.mpr hne
  rw [display_some_write_ok tab files p lim "json" hie]
  dsimp only
  constructor
  · rw [show renderFile tab (pyLower (if "json" = "" then "table" else "json"))
        (usedSlice lim files) = jsonDump false (usedSlice lim files) from rfl,
      jsonDump_ascii _ hascii]
  · rfl

theorem claim6_witness :
    (display_large_files tab0 [("a", 5)] (some "o") none "json" true true).written =
        some ("o", jsonDump true (usedSlice none [("a", 5)])) ∧
      (display_large_files tab0 [("a", 5)] (some "o") none "json" true true).stdout =
        jsonDump true (usedSlice none [("a", 5)]) ++ "\n" :=
  claim6_amended_json_ascii tab0 [("a", 5)] "o" none (by decide) (by decide)
